import Mathlib

/-!
# Verification of the RSS parser core of stacks-pc20

This file gives a shallow embedding of the RSS/XML feed parser in
`src/lib/rssParser.ts` (text cleaning, duration normalization, cover-art
resolution, single-feed extraction, retry wrapper, batch aggregation and
publisher-feed resolution) and proves properties of it.

Modelling conventions:
* JavaScript strings are Lean `String`s; character-level processing is done on
  `List Char`.
* Effectful calls (network fetch, the per-URL feed parse inside the batch
  aggregator, the operation passed to the retry wrapper) are passed in as
  function parameters, so all definitions are pure and executable.
* `Option` models `undefined`/`null`-able values; `Except String` models a
  promise that can reject with an `Error` carrying a message.
* Loops that walk down a list in non-structural steps are written with a fuel
  parameter which the wrapper instantiates with the list length; this keeps
  every definition computable by kernel reduction.
-/

/-! ## JavaScript string primitives -/

/-- Characters treated as whitespace by the model of `String.prototype.trim`. -/
def jsWs (c : Char) : Bool := c.isWhitespace

/-- Model of `String.prototype.trim` on character lists. -/
def jsTrimChars (l : List Char) : List Char :=
  ((l.dropWhile jsWs).reverse.dropWhile jsWs).reverse

/-- Model of `String.prototype.trim`. -/
def jsTrim (s : String) : String := ⟨jsTrimChars s.data⟩

/-- Model of `String.prototype.padStart(2, '0')`. -/
def padStart2 (s : String) : String :=
  ⟨List.replicate (2 - s.length) '0'⟩ ++ s

/-- Value of a leading run of decimal digits; `none` when there is none
(models the NaN outcome of `parseInt`). -/
def decDigitsVal (l : List Char) : Option Nat :=
  let ds := l.takeWhile Char.isDigit
  if ds = [] then none
  else some (ds.foldl (fun a c => a * 10 + (c.toNat - 48)) 0)

def isHexDigitChar (c : Char) : Bool :=
  c.isDigit || ('a' ≤ c && c ≤ 'f') || ('A' ≤ c && c ≤ 'F')

def hexDigitVal (c : Char) : Nat :=
  if c.isDigit then c.toNat - 48
  else if 'a' ≤ c && c ≤ 'f' then c.toNat - 87
  else c.toNat - 55

def hexDigitsVal (l : List Char) : Option Nat :=
  let ds := l.takeWhile isHexDigitChar
  if ds = [] then none
  else some (ds.foldl (fun a c => a * 16 + hexDigitVal c) 0)

/-- Model of JavaScript `parseInt` called with no radix argument: skip leading
whitespace, read an optional sign, then either a `0x`/`0X`-prefixed hexadecimal
digit run or a decimal digit run; `none` models the `NaN` result.  (Precision
loss of huge numbers is not modelled; no input considered here is affected.) -/
def jsParseInt (s : String) : Option Int :=
  let l := s.data.dropWhile jsWs
  let sign : Int := if l.head? = some '-' then -1 else 1
  let l2 := if l.head? = some '-' || l.head? = some '+' then l.tail else l
  match l2 with
  | '0' :: x :: rest =>
    if x = 'x' || x = 'X' then (hexDigitsVal rest).map (fun n => sign * n)
    else (decDigitsVal l2).map (fun n => sign * n)
  | _ => (decDigitsVal l2).map (fun n => sign * n)

/-- Model of `String.prototype.replace` with a global literal pattern:
non-overlapping left-to-right replacement, never rescanning replaced text.
`fuel` bounds the scan; callers pass the input length. -/
def replaceAllGo (pat rep : List Char) : Nat → List Char → List Char
  | _, [] => []
  | 0, l => l
  | fuel + 1, c :: rest =>
    if pat ≠ [] ∧ pat.isPrefixOf (c :: rest) then
      rep ++ replaceAllGo pat rep fuel ((c :: rest).drop pat.length)
    else
      c :: replaceAllGo pat rep fuel rest

def replaceAll (pat rep l : List Char) : List Char :=
  replaceAllGo pat rep l.length l

/-- Model of `String.prototype.split` with a (nonempty) literal separator:
left-to-right non-overlapping cuts. `fuel` bounds the scan. -/
def splitOnListGo (sep : List Char) : Nat → List Char → List Char → List (List Char)
  | _, acc, [] => [acc.reverse]
  | 0, acc, l => [acc.reverse ++ l]
  | fuel + 1, acc, c :: rest =>
    if sep ≠ [] ∧ sep.isPrefixOf (c :: rest) then
      acc.reverse :: splitOnListGo sep fuel [] ((c :: rest).drop sep.length)
    else
      splitOnListGo sep fuel (c :: acc) rest

def jsSplit (s sep : String) : List String :=
  (splitOnListGo sep.data s.data.length [] s.data).map (fun l => (⟨l⟩ : String))

/-- Drop characters up to and including the first `'>'`. -/
def dropThroughGt : List Char → List Char
  | [] => []
  | '>' :: rest => rest
  | _ :: rest => dropThroughGt rest

/-- Model of `.replace(/<[^>]*>/g, '')`: each `<` with a later `>` starts a tag
that is removed through the first `>`; a `<` with no later `>` cannot be
matched and the remainder is kept verbatim. -/
def stripTagsGo : Nat → List Char → List Char
  | _, [] => []
  | 0, l => l
  | fuel + 1, c :: rest =>
    if c = '<' then
      if rest.contains '>' then stripTagsGo fuel (dropThroughGt rest)
      else c :: rest
    else c :: stripTagsGo fuel rest

def stripTagsChars (l : List Char) : List Char :=
  stripTagsGo l.length l

/-- The fixed entity-replacement sequence of `cleanHtmlContent`, in source
order: `&nbsp;`, `&amp;`, `&lt;`, `&gt;`, `&quot;`, `&#39;`, `&#x27;`,
`&apos;`. -/
def entityDecode (l : List Char) : List Char :=
  replaceAll "&apos;".data "\x27".data
    (replaceAll "&#x27;".data "\x27".data
      (replaceAll "&#39;".data "\x27".data
        (replaceAll "&quot;".data "\x22".data
          (replaceAll "&gt;".data ">".data
            (replaceAll "&lt;".data "<".data
              (replaceAll "&amp;".data "&".data
                (replaceAll "&nbsp;".data " ".data l)))))))

/-- Model of `cleanHtmlContent`: `undefined` on a falsy argument (absent or
empty string), otherwise strip tags, decode the fixed entity list in order,
and trim. -/
def cleanHtmlContent (content : Option String) : Option String :=
  match content with
  | none => none
  | some s =>
    if s = "" then none
    else some ⟨jsTrimChars (entityDecode (stripTagsChars s.data))⟩

/-! ## Duration normalization -/

/-- `toString m ++ ":" ++ zero-padded seconds`, the template literal used by
`normalizeDuration`. -/
def formatMinSec (m s : Int) : String :=
  toString m ++ ":" ++ padStart2 (toString s)

/-- Model of `normalizeDuration` (the `trackTitle` argument only affects
logging and is omitted).  Branches in source order: empty/whitespace input,
pure-digit seconds, `MM:SS`, `HH:MM:SS`, and the passthrough default. -/
def normalizeDuration (duration : String) : String :=
  if jsTrim duration = "" then "0:00"
  else
    let durationStr := jsTrim duration
    let fallback := if durationStr = "" then "0:00" else durationStr
    if durationStr.data ≠ [] ∧ durationStr.data.all Char.isDigit then
      match jsParseInt durationStr with
      | some seconds =>
        if 0 < seconds then formatMinSec (seconds / 60) (seconds % 60)
        else fallback
      | none => fallback
    else if durationStr.data.contains ':' then
      let parts := jsSplit durationStr ":"
      if parts.length = 2 then
        match jsParseInt (parts.getD 0 ""), jsParseInt (parts.getD 1 "") with
        | some mins, some secs =>
          if 0 ≤ mins ∧ 0 ≤ secs ∧ secs < 60 then formatMinSec mins secs
          else fallback
        | _, _ => fallback
      else if parts.length = 3 then
        match jsParseInt (parts.getD 0 ""), jsParseInt (parts.getD 1 ""),
              jsParseInt (parts.getD 2 "") with
        | some hours, some mins, some secs =>
          if 0 ≤ hours ∧ 0 ≤ mins ∧ mins < 60 ∧ 0 ≤ secs ∧ secs < 60 then
            formatMinSec (hours * 60 + mins) secs
          else fallback
        | _, _, _ => fallback
      else fallback
    else fallback

/-! ## XML document model

The source accesses the DOM produced by `DOMParser.parseFromString`.  An
element is modelled as a tag name, an attribute list, child elements and the
character data directly contained in the element (placed before the children,
which is adequate for the leaf-style elements the parser reads).
`getElementsByTagName` returns all descendants with the given tag name in
document (pre-)order, as in the DOM; on the document it also includes the root
elements themselves. -/

inductive Xml where
  | elem (tag : String) (attrs : List (String × String)) (children : List Xml) (text : String)

def Xml.tag : Xml → String
  | .elem t _ _ _ => t

def Xml.attrs : Xml → List (String × String)
  | .elem _ a _ _ => a

def Xml.children : Xml → List Xml
  | .elem _ _ c _ => c

/-- Model of `Element.getAttribute`: the attribute's value, or `none` for the
DOM's `null` when the attribute is absent. -/
def getAttr (el : Xml) (attrName : String) : Option String :=
  el.attrs.lookup attrName

mutual
def textContent : Xml → String
  | .elem _ _ children txt => txt ++ textContentList children
def textContentList : List Xml → String
  | [] => ""
  | c :: cs => textContent c ++ textContentList cs
end

mutual
def descendants : Xml → List Xml
  | .elem _ _ children _ => descendantsList children
def descendantsList : List Xml → List Xml
  | [] => []
  | c :: cs => c :: (descendants c ++ descendantsList cs)
end

/-- Model of `element.getElementsByTagName(tag)`: all proper descendants with
the given tag name, in document order. -/
def getElementsByTagName (el : Xml) (tag : String) : List Xml :=
  (descendants el).filter (fun d => d.tag = tag)

/-- A parsed XML document: its root elements (a well-formed document has one,
but the DOM API itself does not force that). -/
structure XmlDoc where
  roots : List Xml

/-- Model of `document.getElementsByTagName(tag)`: every element of the
document with the given tag name, in document order. -/
def docGetElements (doc : XmlDoc) (tag : String) : List Xml :=
  (descendantsList doc.roots).filter (fun d => d.tag = tag)

/-- The `parsererror` probe run right after `DOMParser.parseFromString`. -/
def hasParserError (doc : XmlDoc) : Bool :=
  !(docGetElements doc "parsererror").isEmpty

/-! ## Result record shapes (the exported interfaces of `rssParser.ts`) -/

structure RSSTrack where
  title : String
  duration : String
  url : Option String
  trackNumber : Option Nat
  subtitle : Option String
  summary : Option String
  image : Option String
  explicit : Option Bool
  keywords : Option (List String)
deriving DecidableEq

structure RSSFunding where
  url : String
  message : Option String
deriving DecidableEq

structure RSSPodRoll where
  url : String
  title : Option String
  description : Option String
deriving DecidableEq

structure RSSPublisher where
  feedGuid : String
  feedUrl : String
  medium : String
deriving DecidableEq

structure RSSPublisherItem where
  feedGuid : String
  feedUrl : String
  medium : String
  title : Option String
deriving DecidableEq

structure RSSOwner where
  ownerName : Option String
  email : Option String
deriving DecidableEq

structure RSSAlbum where
  title : String
  artist : String
  description : String
  coverArt : Option String
  tracks : List RSSTrack
  releaseDate : String
  duration : Option String
  link : Option String
  funding : Option (List RSSFunding)
  subtitle : Option String
  summary : Option String
  keywords : Option (List String)
  categories : Option (List String)
  explicit : Option Bool
  language : Option String
  copyright : Option String
  owner : Option RSSOwner
  podroll : Option (List RSSPodRoll)
  publisher : Option RSSPublisher
deriving DecidableEq

/-! ## Truthiness helpers for `||`-style defaulting -/

/-- `strTruthy o` is `o` without its falsy values: JavaScript treats the empty
string like absence in `x || y` chains. -/
def strTruthy : Option String → Option String
  | some s => if s = "" then none else some s
  | none => none

/-- Model of `a || b` where both sides are possibly-absent strings. -/
def jsOrOpt (a b : Option String) : Option String :=
  match strTruthy a with
  | some s => some s
  | none => b

/-- Model of `a || b` with a mandatory fallback string. -/
def jsOr (a : Option String) (b : String) : String :=
  (strTruthy a).getD b

/-- `el.getElementsByTagName(tag)[0]` as an `Option`. -/
def firstTag (el : Xml) (tag : String) : Option Xml :=
  (getElementsByTagName el tag).head?

/-- `el.getElementsByTagName(tag)[0]?.textContent?.trim()`. -/
def textOf (el : Xml) (tag : String) : Option String :=
  (firstTag el tag).map (fun e => jsTrim (textContent e))

/-! ## Field extraction helpers of `parseAlbumFeed` -/

/-- `textContent?.trim().split(',').map(k => k.trim()).filter(k => k) || []`,
used for both channel- and track-level keyword lists. -/
def keywordListOf (t : Option String) : List String :=
  match t with
  | none => []
  | some s => ((jsSplit s ",").map jsTrim).filter (fun k => k ≠ "")

/-- `el?.textContent?.trim().toLowerCase() === 'true'`. -/
def explicitOf (el : Xml) (tag : String) : Bool :=
  match textOf el tag with
  | some t => t.toLower = "true"
  | none => false

/-- One `<podcast:funding>`/`<funding>` element: url from the `url` attribute
falling back to text content, entry emitted only when that is truthy; the
message falls back from text content to the `message` attribute and is dropped
when falsy. -/
def fundingOf (el : Xml) : Option RSSFunding :=
  let url := jsOrOpt (getAttr el "url") (some (jsTrim (textContent el)))
  match strTruthy url with
  | none => none
  | some u =>
    let message := jsOrOpt (some (jsTrim (textContent el))) (getAttr el "message")
    some ⟨u, strTruthy message⟩

/-- Model of `g.substring(0, 8)`. -/
def jsSubstring8 (g : String) : String := ⟨g.data.take 8⟩

/-- One remote item inside a podroll container: emitted only when the
`feedUrl` attribute is truthy; title falls back from the `title` attribute to
text content to `Feed <guid prefix>...`. -/
def podrollEntryOf (el : Xml) : Option RSSPodRoll :=
  match strTruthy (getAttr el "feedUrl") with
  | none => none
  | some u =>
    let fallbackTitle :=
      match strTruthy (getAttr el "feedGuid") with
      | some g => "Feed " ++ jsSubstring8 g ++ "..."
      | none => "Feed Unknown"
    let title := jsOrOpt (getAttr el "title") (some (jsTrim (textContent el)))
    some ⟨u, some (jsOr title fallbackTitle), strTruthy (getAttr el "description")⟩

/-- The raw (pre-normalization) duration string of an item:
`itunes:duration` text when it trims truthy, else the plain `duration` tag,
else the initial `'0:00'`. -/
def rawDuration (item : Xml) : String :=
  match strTruthy (textOf item "itunes:duration") with
  | some d => d
  | none =>
    match strTruthy (textOf item "duration") with
    | some d => d
    | none => "0:00"

/-- The three-stage track URL fallback: enclosure `url` attribute, then link
text, then `media:content` `url` attribute. -/
def trackUrl (item : Xml) : Option String :=
  match (firstTag item "enclosure").bind (fun e => strTruthy (getAttr e "url")) with
  | some u => some u
  | none =>
    match strTruthy (textOf item "link") with
    | some u => some u
    | none => (firstTag item "media:content").bind (fun e => strTruthy (getAttr e "url"))

/-- The track built for the item at 0-based index `i` of the item list. -/
def mkTrack (i : Nat) (item : Xml) : RSSTrack :=
  let trackKeywords := keywordListOf (textOf item "itunes:keywords")
  { title := jsOr (textOf item "title") ("Track " ++ toString (i + 1))
    duration := normalizeDuration (rawDuration item)
    url := trackUrl item
    trackNumber := some (i + 1)
    subtitle := cleanHtmlContent (textOf item "itunes:subtitle")
    summary := cleanHtmlContent (textOf item "itunes:summary")
    image := strTruthy (jsOrOpt ((firstTag item "itunes:image").bind (fun e => getAttr e "href"))
                               ((firstTag item "itunes:image").bind (fun e => getAttr e "url")))
    explicit := some (explicitOf item "itunes:explicit")
    keywords := if trackKeywords.length > 0 then some trackKeywords else none }

/-- The item loop of `parseAlbumFeed`, pushing one track per item in document
order with a running 0-based index. -/
def buildTracks (i : Nat) : List Xml → List RSSTrack
  | [] => []
  | item :: rest => mkTrack i item :: buildTracks (i + 1) rest

/-! ## Cover-art extraction -/

mutual
/-- `querySelector('image url')` over a scope's child list: the first
descendant `url` element having an `image` ancestor below the scope. -/
def findDescUrl (inImage : Bool) : List Xml → Option Xml
  | [] => none
  | c :: cs =>
    match findDescUrlOne inImage c with
    | some r => some r
    | none => findDescUrl inImage cs
def findDescUrlOne (inImage : Bool) : Xml → Option Xml
  | .elem t a children txt =>
    if t = "url" ∧ inImage then some (.elem t a children txt)
    else findDescUrl (inImage || t = "image") children
end

/-- Case-insensitive literal-prefix test (the pattern is given lowercase). -/
def ciHasPrefix (pat : String) (l : List Char) : Bool :=
  pat.data.isPrefixOf ((l.take pat.data.length).map Char.toLower)

/-- Attempt to complete the `<img ... src=...>` regex match with the `src=`
token at offset `j` of the text following `<img`. -/
def srcAt (afterImg : List Char) (j : Nat) : Option (List Char) :=
  let l2 := afterImg.drop j
  if ciHasPrefix "src=" l2 then
    match l2.drop 4 with
    | q :: rest2 =>
      if q = '\x22' || q = '\x27' then
        let cap := rest2.takeWhile (fun c => c ≠ '\x22' ∧ c ≠ '\x27')
        match rest2.drop cap.length with
        | _ :: rest4 => if cap ≠ [] ∧ rest4.contains '>' then some cap else none
        | [] => none
      else none
    | [] => none
  else none

/-- Try `src=` offsets from `j` down to 1 (the greedy `[^>]+` backtracks from
the longest prefix). -/
def tryCands (afterImg : List Char) : Nat → Option (List Char)
  | 0 => none
  | j + 1 =>
    match srcAt afterImg (j + 1) with
    | some cap => some cap
    | none => tryCands afterImg j

/-- Complete a match of `/<img[^>]+src=["\x27]([^"\x27]+)["\x27][^>]*>/i`
after an `<img` occurrence, returning the captured source. -/
def imgMatchAfter (afterImg : List Char) : Option (List Char) :=
  tryCands afterImg ((afterImg.takeWhile (fun c => c ≠ '>')).length)

/-- Leftmost match of the image-source regex over the whole text. -/
def findImgFrom : List Char → Option (List Char)
  | [] => none
  | c :: rest =>
    if ciHasPrefix "<img" (c :: rest) then
      match imgMatchAfter ((c :: rest).drop 4) with
      | some cap => some cap
      | none => findImgFrom rest
    else findImgFrom rest

def findImgSrc (s : String) : Option String :=
  (findImgFrom s.data).map (fun l => (⟨l⟩ : String))

/-- Model of `new URL(u)` followed by reassembly as
`protocol + '//' + host + pathname`, restricted to `scheme://host...` shapes;
other strings are treated as the constructor throwing, in which case the
caller keeps the raw candidate. -/
def jsUrlStrip (u : String) : Option String :=
  match jsSplit u "://" with
  | [] => none
  | [_] => none
  | scheme :: r0 :: rs =>
    let rest := String.intercalate "://" (r0 :: rs)
    let hostChars := rest.data.takeWhile (fun c => c ≠ '/' ∧ c ≠ '?' ∧ c ≠ '#')
    let afterHost := rest.data.drop hostChars.length
    let path : List Char :=
      if afterHost.head? = some '/' then afterHost.takeWhile (fun c => c ≠ '?' ∧ c ≠ '#')
      else ['/']
    if scheme = "" ∨ hostChars = [] then none
    else some (scheme ++ "://" ++ (⟨hostChars⟩ : String) ++ (⟨path⟩ : String))

/-- Model of `extractCoverArt`: the five fallback methods in source order,
each candidate checked for truthiness, then URL cleanup that keeps the raw
candidate when URL parsing fails. -/
def extractCoverArt (channel : Xml) (items : List Xml) : Option String :=
  let m1 := strTruthy ((firstTag channel "itunes:image").bind (fun e => getAttr e "href"))
  let m2 := strTruthy ((findDescUrl false channel.children).map (fun u => jsTrim (textContent u)))
  let m3 := strTruthy ((firstTag channel "image").bind (fun e =>
    jsOrOpt (getAttr e "url") (getAttr e "href")))
  let m4 :=
    match items.head? with
    | none => none
    | some firstItem =>
      let i1 := strTruthy ((firstTag firstItem "itunes:image").bind (fun e => getAttr e "href"))
      let i2 := strTruthy ((firstTag firstItem "media:content").bind (fun e =>
        match getAttr e "type" with
        | some ty => if "image/".isPrefixOf ty then getAttr e "url" else none
        | none => none))
      let i3 := strTruthy ((firstTag firstItem "enclosure").bind (fun e =>
        match getAttr e "type" with
        | some ty => if "image/".isPrefixOf ty then getAttr e "url" else none
        | none => none))
      jsOrOpt i1 (jsOrOpt i2 i3)
  let m5 := findImgSrc (jsOr ((firstTag channel "description").map textContent) "")
  match jsOrOpt m1 (jsOrOpt m2 (jsOrOpt m3 (jsOrOpt m4 m5))) with
  | none => none
  | some c =>
    match jsUrlStrip c with
    | some cleaned => some cleaned
    | none => some c

/-! ## The single-feed extractor (`parseAlbumFeed`), post-acquisition stage

`parseAlbumFeed` first acquires and DOM-parses the body; those steps reject on
transport and format errors and are modelled by `parseAlbumFromDoc` taking the
already-parsed document.  `nowIso` injects `new Date().toISOString()`. -/

/-- The channel-level `artist` computation: `itunes:author` text, else `author`
text, defaulting to `'Unknown Artist'`; with no author element, the first
segment of a `'Artist - Album'`-style title. -/
def artistOf (channel : Xml) (title : String) : String :=
  let authorEl :=
    match getElementsByTagName channel "itunes:author" with
    | [] => (getElementsByTagName channel "author").head?
    | e :: _ => some e
  match authorEl with
  | some el => jsOr (some (jsTrim (textContent el))) "Unknown Artist"
  | none =>
    let titleParts := jsSplit title " - "
    if titleParts.length > 1 then jsTrim (titleParts.getD 0 "")
    else "Unknown Artist"

/-- The record built from the first `<channel>` element. -/
def albumFromChannel (nowIso : String) (doc : XmlDoc) (channel : Xml) : RSSAlbum :=
  let title := jsOr (textOf channel "title") "Unknown Album"
  let description := jsOr (textOf channel "description") ""
  let link := jsOr (textOf channel "link") ""
  let items := docGetElements doc "item"
  let coverArt := extractCoverArt channel items
  let keywords := keywordListOf (textOf channel "itunes:keywords")
  let categories := (getElementsByTagName channel "itunes:category").filterMap
    (fun cat => strTruthy (getAttr cat "text"))
  let owner :=
    match (getElementsByTagName channel "itunes:owner").head? with
    | none => none
    | some ownerEl => some (RSSOwner.mk (textOf ownerEl "itunes:name") (textOf ownerEl "itunes:email"))
  let releaseDateEl :=
    match (getElementsByTagName channel "pubDate").head? with
    | some e => some e
    | none => (getElementsByTagName channel "lastBuildDate").head?
  let funding := ((getElementsByTagName channel "podcast:funding")
      ++ (getElementsByTagName channel "funding")).filterMap fundingOf
  let podroll := ((getElementsByTagName channel "podcast:podroll")
      ++ (getElementsByTagName channel "podroll")).flatMap (fun pr =>
        ((getElementsByTagName pr "podcast:remoteItem")
          ++ (getElementsByTagName pr "remoteItem")).filterMap podrollEntryOf)
  let publisher :=
    match (getElementsByTagName channel "podcast:remoteItem").find?
        (fun e => getAttr e "medium" == some "publisher") with
    | none => none
    | some el =>
      match strTruthy (getAttr el "feedGuid"), strTruthy (getAttr el "feedUrl"),
            strTruthy (getAttr el "medium") with
      | some g, some u, some m => some (RSSPublisher.mk g u m)
      | _, _, _ => none
  { title := title
    artist := artistOf channel title
    description := jsOr (cleanHtmlContent (some description)) ""
    coverArt := coverArt
    tracks := buildTracks 0 items
    releaseDate := jsOr (releaseDateEl.map (fun e => jsTrim (textContent e))) nowIso
    duration := none
    link := some link
    funding := if funding.length > 0 then some funding else none
    subtitle := cleanHtmlContent (textOf channel "itunes:subtitle")
    summary := cleanHtmlContent (textOf channel "itunes:summary")
    keywords := if keywords.length > 0 then some keywords else none
    categories := if categories.length > 0 then some categories else none
    explicit := some (explicitOf channel "itunes:explicit")
    language := textOf channel "language"
    copyright := textOf channel "copyright"
    owner :=
      match owner with
      | some o => if (strTruthy o.ownerName).isSome || (strTruthy o.email).isSome then some o else none
      | none => none
    podroll := if podroll.length > 0 then some podroll else none
    publisher := publisher }

/-- `parseAlbumFeed` from the DOM-parse result on: parser-error probe, channel
lookup, then extraction.  The `.error` cases model the typed rejections. -/
def parseAlbumFromDoc (nowIso : String) (doc : XmlDoc) : Except String RSSAlbum :=
  if hasParserError doc then .error "Failed to parse XML content: Invalid XML format"
  else
    match docGetElements doc "channel" with
    | [] => .error "Invalid RSS feed: no channel found"
    | channel :: _ => .ok (albumFromChannel nowIso doc channel)

/-! ## Publisher-feed resolution -/

/-- Outcome of one `fetch` call followed by body decoding and DOM parsing:
either the fetch itself rejected, or a response arrived with `ok` flag,
status, and (DOM-parsed) body. -/
inductive FetchResult where
  | thrown (message : String)
  | response (ok : Bool) (status : Nat) (doc : XmlDoc)

/-- The remote-item scan of `parsePublisherFeedFromUrl`: keep items whose
`medium` attribute equals `'music'` with truthy `feedGuid` and `feedUrl`;
title falls back from the `title` attribute to trimmed text content. -/
def publisherItemsOfChannel (channel : Xml) : List RSSPublisherItem :=
  (getElementsByTagName channel "podcast:remoteItem").filterMap (fun el =>
    if getAttr el "medium" == some "music" then
      match strTruthy (getAttr el "feedGuid"), strTruthy (getAttr el "feedUrl") with
      | some g, some u =>
        some (RSSPublisherItem.mk g u "music"
          (jsOrOpt (getAttr el "title") (some (jsTrim (textContent el)))))
      | _, _ => none
    else none)

/-- Model of `parsePublisherFeedFromUrl`: no try/catch of its own, so every
failure (fetch rejection, non-ok status, parser error, missing channel)
rejects the returned promise. -/
def parsePublisherFeedFromUrl (fetch : FetchResult) : Except String (List RSSPublisherItem) :=
  match fetch with
  | .thrown msg => .error msg
  | .response ok status doc =>
    if !ok then .error ("Failed to fetch publisher feed: " ++ toString status)
    else if hasParserError doc then .error "Invalid XML format"
    else
      match docGetElements doc "channel" with
      | [] => .error "Invalid RSS feed: no channel found"
      | channel :: _ => .ok (publisherItemsOfChannel channel)

/-- Model of `parsePublisherFeed`.  In the source its body is a try/catch whose
catch logs and returns `[]`, but both calls to `parsePublisherFeedFromUrl` are
`return`ed without `await`; by JavaScript async-function semantics the
rejection of that returned promise is adopted by the caller and never reaches
the catch, which only covers synchronous throws (the `typeof` guard).  Errors
from the URL path therefore propagate to the caller. -/
def parsePublisherFeed (feedUrl : String) (fetchOf : String → FetchResult) :
    Except String (List RSSPublisherItem) :=
  if feedUrl = "iroh-aggregated" then
    parsePublisherFeedFromUrl
      (fetchOf "https://wavlake.com/feed/artist/8a9c2e54-785a-4128-9412-737610f5d00a")
  else
    parsePublisherFeedFromUrl (fetchOf feedUrl)

/-! ## Batch aggregation (`parseMultipleFeedsInternal`)

Each URL's promise runs `parseAlbumFeed` under `withRetry` inside a
try/catch that converts every failure to `null`, and `parseAlbumFeed` itself
ends in `.catch(... => null)`; so a member promise always fulfills, with
`null` or an album.  The per-URL outcome is injected as
`parse : String → Nat × Option RSSAlbum`, pairing a completion time (used only
by the claim-side completion-order model) with the fulfilled value. -/

/-- Model of `Promise.allSettled`: fulfillment values in input order,
irrespective of the completion times. -/
def allSettled (ps : List (Nat × Option RSSAlbum)) : List (Option RSSAlbum) :=
  ps.map Prod.snd

/-- The window loop: slices of 20 URLs, per window the settled results are
filtered into successes (fulfilled, non-null) and failures (null), successes
appended in order, failure count accumulated (the logging path).  `fuel`
bounds the loop; the wrapper passes the URL count. -/
def parseMultipleFeedsGo (parse : String → Nat × Option RSSAlbum) :
    Nat → List String → List RSSAlbum × Nat
  | _, [] => ([], 0)
  | 0, l => ([], l.length - l.length)
  | fuel + 1, u :: rest =>
    let batch := (u :: rest).take 20
    let settled := allSettled (batch.map parse)
    let successful := settled.filterMap id
    let failed := (settled.filter (fun o => o.isNone)).length
    let r := parseMultipleFeedsGo parse fuel ((u :: rest).drop 20)
    (successful ++ r.1, failed + r.2)

/-- Model of `parseMultipleFeedsInternal`: the returned album list and the
total number of failures reported to the log. -/
def parseMultipleFeedsInternal (parse : String → Nat × Option RSSAlbum)
    (feedUrls : List String) : List RSSAlbum × Nat :=
  parseMultipleFeedsGo parse feedUrls.length feedUrls

/-! ## Retry wrapper (`withRetry`) -/

/-- Observable behaviour of one `withRetry` run: the settlement (`.error none`
models the `throw lastError!` reached with zero attempts, where `lastError`
was never assigned), the `onRetry` callback invocations in order, and the
backoff delays awaited in order. -/
structure RetryTrace (E A : Type) where
  result : Except (Option E) A
  callbacks : List (Nat × E)
  delays : List Nat

/-- The attempt loop: `attempt` is the 1-based attempt counter, the second
argument the number of attempts still allowed (`maxRetries - attempt + 1`).
On failure at the final attempt the error is rethrown; otherwise the callback
fires with the attempt number, `delay * 2 ^ (attempt - 1)` is awaited and the
loop continues. -/
def withRetryGo (op : Nat → Except E A) (delay : Nat) : Nat → Nat → RetryTrace E A
  | _, 0 => ⟨.error none, [], []⟩
  | attempt, 1 =>
    match op attempt with
    | .ok a => ⟨.ok a, [], []⟩
    | .error e => ⟨.error (some e), [], []⟩
  | attempt, r + 2 =>
    match op attempt with
    | .ok a => ⟨.ok a, [], []⟩
    | .error e =>
      let t := withRetryGo op delay (attempt + 1) (r + 1)
      ⟨t.result, (attempt, e) :: t.callbacks, (delay * 2 ^ (attempt - 1)) :: t.delays⟩

/-- Model of `withRetry` with the operation's per-attempt outcomes injected as
`op`. -/
def withRetry (op : Nat → Except E A) (maxRetries delay : Nat) : RetryTrace E A :=
  withRetryGo op delay 1 maxRetries

/-! ## Spec-side definitions

These definitions follow the wording of spec sentences (not the source) and
are compared against the source-derived definitions above. -/

/-- The canonical duration shape asserted by the spec: minutes, a colon, and
two-digit zero-padded seconds. -/
def specCanonicalMSS (s : String) : Bool :=
  match jsSplit s ":" with
  | [m, ss] =>
    m ≠ "" && m.data.all Char.isDigit && ss.data.length = 2 && ss.data.all Char.isDigit
  | _ => false

/-- The publisher selection as the claim words it: scan only remote-item
children of the channel directly (hence never one nested inside a podroll
container) for the first with medium `'publisher'`, emitted only when
feedGuid, feedUrl and medium are all present. -/
def specClaimPublisherDirectOnly (channel : Xml) : Option RSSPublisher :=
  match (channel.children.filter (fun e => e.tag = "podcast:remoteItem")).find?
      (fun e => getAttr e "medium" == some "publisher") with
  | none => none
  | some el =>
    match getAttr el "feedGuid", getAttr el "feedUrl", getAttr el "medium" with
    | some g, some u, some m => some ⟨g, u, m⟩
    | _, _, _ => none

/-- The amended publisher selection: scan all remote-item descendants of the
channel (podroll-nested ones included) in document order for the first with
medium `'publisher'`, emitted only when feedGuid, feedUrl and medium are all
present and nonempty. -/
def amendedPublisherDeep (channel : Xml) : Option RSSPublisher :=
  match ((descendants channel).filter (fun e => e.tag = "podcast:remoteItem")).find?
      (fun e => getAttr e "medium" == some "publisher") with
  | none => none
  | some el =>
    match strTruthy (getAttr el "feedGuid"), strTruthy (getAttr el "feedUrl"),
          strTruthy (getAttr el "medium") with
    | some g, some u, some m => some ⟨g, u, m⟩
    | _, _, _ => none

/-- Stable insertion by completion time. -/
def insertByTime (x : Nat × Option RSSAlbum) :
    List (Nat × Option RSSAlbum) → List (Nat × Option RSSAlbum)
  | [] => [x]
  | y :: ys => if x.1 < y.1 then x :: y :: ys else y :: insertByTime x ys

def sortByTime (l : List (Nat × Option RSSAlbum)) : List (Nat × Option RSSAlbum) :=
  l.foldr insertByTime []

/-- The within-window ordering the claim asserts: per window of 20, settled
results ordered by completion time of the member promises, successes kept. -/
def specCompletionOrderGo (parse : String → Nat × Option RSSAlbum) :
    Nat → List String → List RSSAlbum
  | _, [] => []
  | 0, _ => []
  | fuel + 1, u :: rest =>
    let batch := (u :: rest).take 20
    ((sortByTime (batch.map parse)).map Prod.snd).filterMap id
      ++ specCompletionOrderGo parse fuel ((u :: rest).drop 20)

def specCompletionOrder (parse : String → Nat × Option RSSAlbum)
    (feedUrls : List String) : List RSSAlbum :=
  specCompletionOrderGo parse feedUrls.length feedUrls

/-! ## Concrete fixtures -/

def emptyDoc : XmlDoc := ⟨[]⟩

/-- A document whose DOM parse reported an error. -/
def badDoc : XmlDoc := ⟨[Xml.elem "parsererror" [] [] "syntax error"]⟩

/-- A parse-clean document with no `<channel>`. -/
def noChannelDoc : XmlDoc := ⟨[Xml.elem "rss" [] [] ""]⟩

/-- A minimal feed: one empty channel. -/
def channelMin : Xml := Xml.elem "channel" [] [] ""

def minDoc : XmlDoc := ⟨[Xml.elem "rss" [] [channelMin] ""]⟩

/-- A feed with a single item whose `itunes:duration` is the malformed string
`"abc"`. -/
def doc5 : XmlDoc :=
  ⟨[Xml.elem "rss" [] [Xml.elem "channel" []
      [Xml.elem "item" [] [Xml.elem "itunes:duration" [] [] "abc"] ""] ""] ""]⟩

/-- A well-formed feed with three items; the second has no title element. -/
def doc7items : List Xml :=
  [Xml.elem "item" [] [Xml.elem "title" [] [] "Song One"] "",
   Xml.elem "item" [] [Xml.elem "enclosure" [("url", "https://x.example/2.mp3")] [] ""] "",
   Xml.elem "item" [] [Xml.elem "title" [] [] "Song Three"] ""]

def doc7 : XmlDoc :=
  ⟨[Xml.elem "rss" [] [Xml.elem "channel" [] doc7items ""] ""]⟩

/-- A channel whose only remote item sits inside a podroll container and
carries medium `'publisher'`. -/
def channel8 : Xml :=
  Xml.elem "channel" []
    [Xml.elem "podcast:podroll" []
      [Xml.elem "podcast:remoteItem"
        [("feedGuid", "guid-1"), ("feedUrl", "https://pub.example/feed"),
         ("medium", "publisher")] [] ""] ""] ""

def doc8 : XmlDoc := ⟨[Xml.elem "rss" [] [channel8] ""]⟩

/-- Two distinguishable albums for the ordering counterexample. -/
def albumA : RSSAlbum :=
  ⟨"A", "Unknown Artist", "", none, [], "", none, none, none, none, none, none,
   none, none, none, none, none, none, none⟩

def albumB : RSSAlbum :=
  ⟨"B", "Unknown Artist", "", none, [], "", none, none, none, none, none, none,
   none, none, none, none, none, none, none⟩

/-- Two feeds in one window: the first completes at time 5, the second at
time 1, so completion order is the reverse of input order. -/
def parse2 (u : String) : Nat × Option RSSAlbum :=
  if u = "a" then (5, some albumA) else (1, some albumB)

/-- 25 URLs for the batch scenario. -/
def urls25 : List String :=
  (List.range 25).map (fun i => "https://feed.example/" ++ toString i)

/-- A parse oracle failing exactly at the URLs in positions 5 and 17 of
`urls25`. -/
def parse25 (u : String) : Nat × Option RSSAlbum :=
  if u = "https://feed.example/5" ∨ u = "https://feed.example/17" then (0, none)
  else (0, some albumA)

/-- The isNone-mask of a 25-member batch failing exactly at positions 5
and 17. -/
def failMask25 : List Bool :=
  (List.range 25).map (fun i => decide (i = 5 ∨ i = 17))

/-- An operation failing on attempts 1 and 2 and succeeding on attempt 3. -/
def op3c : Nat → Except String Nat :=
  fun i => if i ≤ 2 then .error ("e" ++ toString i) else .ok 42

/-! ## Helper lemmas -/

def xmlDefault : Xml := .elem "" [] [] ""

def trackDefault : RSSTrack := mkTrack 0 xmlDefault

/-- The album value a successful `parseAlbumFromDoc` run yields (with an
arbitrary default in the error case), used to instantiate theorems at
concrete documents. -/
def albumOf (nowIso : String) (doc : XmlDoc) : RSSAlbum :=
  match parseAlbumFromDoc nowIso doc with
  | .ok a => a
  | .error _ => albumA

theorem parseAlbum_ok (nowIso : String) (doc : XmlDoc) (album : RSSAlbum)
    (hok : parseAlbumFromDoc nowIso doc = .ok album) :
    ∃ channel rest, docGetElements doc "channel" = channel :: rest ∧
      album = albumFromChannel nowIso doc channel := by
  unfold parseAlbumFromDoc at hok
  split at hok
  · exact absurd hok (by simp)
  · split at hok
    · exact absurd hok (by simp)
    · rename_i channel rest heq
      exact ⟨channel, rest, heq, by injection hok with h2; exact h2.symm⟩

theorem buildTracks_length (k : Nat) (l : List Xml) :
    (buildTracks k l).length = l.length := by
  induction l generalizing k with
  | nil => rfl
  | cons x xs ih => simp [buildTracks, ih]

theorem buildTracks_map_duration (k : Nat) (l : List Xml) :
    (buildTracks k l).map (fun t => t.duration)
      = l.map (fun it => normalizeDuration (rawDuration it)) := by
  induction l generalizing k with
  | nil => rfl
  | cons x xs ih => simp [buildTracks, mkTrack, ih]

theorem parseMultipleFeedsGo_spec (parse : String → Nat × Option RSSAlbum) :
    ∀ (fuel : Nat) (l : List String), l.length ≤ fuel →
      parseMultipleFeedsGo parse fuel l =
        (l.filterMap (fun u => (parse u).2),
         ((l.map (fun u => (parse u).2)).filter (fun o => o.isNone)).length) := by
  intro fuel
  induction fuel with
  | zero =>
    intro l h
    have h0 : l = [] := List.eq_nil_of_length_eq_zero (Nat.le_zero.mp h)
    subst h0; rfl
  | succ n ih =>
    intro l h
    match l with
    | [] => rfl
    | u :: rest =>
      have hdrop : ((u :: rest).drop 20).length ≤ n := by
        simp only [List.length_drop, List.length_cons]
        simp only [List.length_cons] at h
        omega
      rw [parseMultipleFeedsGo, ih _ hdrop]
      conv_rhs => rw [← List.take_append_drop 20 (u :: rest)]
      rw [List.filterMap_append, List.map_append, List.filter_append, List.length_append]
      simp only [allSettled, List.map_map, List.filterMap_map, Function.comp_def, id_eq]

theorem filterMap_id_length_add {α : Type} (opts : List (Option α)) :
    (opts.filterMap id).length + (opts.filter (fun o => o.isNone)).length
      = opts.length := by
  induction opts with
  | nil => rfl
  | cons o rest ih =>
    cases o <;> simp [List.filterMap_cons, List.filter_cons] <;> omega

theorem filter_isNone_length {α : Type} (opts : List (Option α)) :
    (opts.filter (fun o => o.isNone)).length
      = ((opts.map Option.isNone).filter id).length := by
  induction opts with
  | nil => rfl
  | cons o rest ih => cases o <;> simp [List.filter_cons, ih]

theorem withRetryGo_all_fail {E A : Type} (op : Nat → Except E A) (delay : Nat)
    (et : Nat → E) :
    ∀ (remaining attempt : Nat),
      (∀ i, attempt ≤ i → i ≤ attempt + remaining → op i = .error (et i)) →
      withRetryGo op delay attempt (remaining + 1) =
        ⟨.error (some (et (attempt + remaining))),
         (List.range remaining).map (fun j => (attempt + j, et (attempt + j))),
         (List.range remaining).map (fun j => delay * 2 ^ (attempt + j - 1))⟩ := by
  intro remaining
  induction remaining with
  | zero =>
    intro attempt h
    have h1 : op attempt = .error (et attempt) := h attempt (Nat.le_refl _) (by omega)
    simp only [withRetryGo, h1, List.range_zero, List.map_nil, Nat.add_zero]
  | succ r ih =>
    intro attempt h
    have h1 : op attempt = .error (et attempt) := h attempt (Nat.le_refl _) (by omega)
    have h2 := ih (attempt + 1) (fun i hi1 hi2 => h i (by omega) (by omega))
    have harith : ∀ j : Nat, attempt + 1 + j = attempt + (j + 1) := by omega
    show withRetryGo op delay attempt (r + 2) = _
    simp only [withRetryGo, h1]
    rw [h2]
    simp only [List.range_succ_eq_map, List.map_cons, List.map_map, RetryTrace.mk.injEq]
    refine ⟨by rw [harith r], ?_, ?_⟩
    · simp [Function.comp_def, harith, Nat.add_zero]
    · simp [Function.comp_def, harith, Nat.add_zero]

theorem replaceAll_not_head (pat rep l : List Char) (p : Char)
    (hp : pat.head? = some p) (h : p ∉ l) : replaceAll pat rep l = l := by
  match pat, hp with
  | q :: pr, hq =>
    have hq2 : q = p := by simpa using hq
    subst hq2
    unfold replaceAll
    generalize l.length = fuel
    induction fuel generalizing l with
    | zero => cases l <;> rfl
    | succ n ih =>
      match l with
      | [] => rfl
      | c :: rest =>
        simp only [List.mem_cons, not_or] at h
        have hnp : ¬((q :: pr ≠ []) ∧ (q :: pr).isPrefixOf (c :: rest) = true) := by
          rintro ⟨-, hpre⟩
          rw [List.isPrefixOf_iff_prefix, List.cons_prefix_cons] at hpre
          exact h.1 hpre.1
        rw [replaceAllGo, if_neg hnp, ih rest h.2]

theorem stripTagsChars_no_lt (l : List Char) (h : '<' ∉ l) :
    stripTagsChars l = l := by
  unfold stripTagsChars
  generalize l.length = fuel
  induction fuel generalizing l with
  | zero => cases l <;> rfl
  | succ n ih =>
    match l with
    | [] => rfl
    | c :: rest =>
      simp only [List.mem_cons, not_or] at h
      rw [stripTagsGo, if_neg (fun hc => h.1 hc.symm), ih rest h.2]

theorem entityDecode_no_amp (l : List Char) (h : '&' ∉ l) :
    entityDecode l = l := by
  unfold entityDecode
  rw [replaceAll_not_head "&nbsp;".data " ".data l '&' (by decide) h]
  rw [replaceAll_not_head "&amp;".data "&".data l '&' (by decide) h]
  rw [replaceAll_not_head "&lt;".data "<".data l '&' (by decide) h]
  rw [replaceAll_not_head "&gt;".data ">".data l '&' (by decide) h]
  rw [replaceAll_not_head "&quot;".data "\x22".data l '&' (by decide) h]
  rw [replaceAll_not_head "&#39;".data "\x27".data l '&' (by decide) h]
  rw [replaceAll_not_head "&#x27;".data "\x27".data l '&' (by decide) h]
  rw [replaceAll_not_head "&apos;".data "\x27".data l '&' (by decide) h]

theorem cleanHtml_no_markup (s : String) (hne : s ≠ "")
    (h : ∀ c ∈ s.data, c ≠ '&' ∧ c ≠ '<') :
    cleanHtmlContent (some s) = some (jsTrim s) := by
  have hred : cleanHtmlContent (some s)
      = if s = "" then none
        else some ⟨jsTrimChars (entityDecode (stripTagsChars s.data))⟩ := rfl
  rw [hred, if_neg hne]
  rw [stripTagsChars_no_lt s.data (fun hm => (h _ hm).2 rfl)]
  rw [entityDecode_no_amp s.data (fun hm => (h _ hm).1 rfl)]
  rfl

theorem jsTrimChars_all_ws (l : List Char) (h : ∀ c ∈ l, jsWs c) :
    jsTrimChars l = [] := by
  have hd : ∀ m : List Char, (∀ c ∈ m, jsWs c) → m.dropWhile jsWs = [] := by
    intro m hm
    induction m with
    | nil => rfl
    | cons c cs ih =>
      rw [List.dropWhile_cons, if_pos (hm c (List.mem_cons_self c cs))]
      exact ih (fun d hdm => hm d (List.mem_cons_of_mem c hdm))
  unfold jsTrimChars
  rw [hd l h]
  rfl

theorem textOf_eq_none (el : Xml) (tag : String)
    (h : getElementsByTagName el tag = []) : textOf el tag = none := by
  simp [textOf, firstTag, h]

/-! ## Claim theorems -/

/-- Claim C1: the claim (and spec) say `parsePublisherFeed` swallows all
errors — transport failure, non-success HTTP status, invalid XML, missing
channel — and returns an empty list.  The code does not: the try/catch returns
the inner promise without `await`, so all four error classes reject the
returned promise.  This theorem evaluates the model at one failing input per
error class, each propagating as an error rather than yielding `[]`. -/
theorem claim1_publisher_errors_propagate :
    parsePublisherFeed "https://example.com/feed"
        (fun _ => .response false 500 emptyDoc)
      = .error "Failed to fetch publisher feed: 500" ∧
    parsePublisherFeed "https://example.com/feed"
        (fun _ => .thrown "NetworkError when attempting to fetch resource.")
      = .error "NetworkError when attempting to fetch resource." ∧
    parsePublisherFeed "https://example.com/feed"
        (fun _ => .response true 200 badDoc)
      = .error "Invalid XML format" ∧
    parsePublisherFeed "https://example.com/feed"
        (fun _ => .response true 200 noChannelDoc)
      = .error "Invalid RSS feed: no channel found" :=
  ⟨rfl, rfl, rfl, rfl⟩

/-- Claim C2, counterexample: with two URLs in one window whose completion
times are reversed (the first completes at time 5, the second at time 1), the
aggregator returns the successes in input order, which differs from the
completion order the claim asserts. -/
theorem claim2_counterexample :
    (parseMultipleFeedsInternal parse2 ["a", "b"]).1 = [albumA, albumB] ∧
    specCompletionOrder parse2 ["a", "b"] = [albumB, albumA] ∧
    (parseMultipleFeedsInternal parse2 ["a", "b"]).1
      ≠ specCompletionOrder parse2 ["a", "b"] :=
  ⟨rfl, rfl, by decide⟩

/-- Claim C2, amended: the final return is the concatenation of all windows'
successes in window order, and within one window the results follow the input
order of the URLs (the join primitive reports settled results in input order,
irrespective of completion order); equivalently, the returned list is the
input-order filter of the successful parses. -/
theorem claim2_window_input_order (parse : String → Nat × Option RSSAlbum)
    (feedUrls : List String) :
    (parseMultipleFeedsInternal parse feedUrls).1
      = feedUrls.filterMap (fun u => (parse u).2) := by
  rw [parseMultipleFeedsInternal,
    parseMultipleFeedsGo_spec parse feedUrls.length feedUrls (Nat.le_refl _)]

/-- Claim C3: the batch aggregator always resolves (the member promises catch
every failure and fulfill with `null`, so the model is a total function) and
returns exactly the successfully parsed albums; in particular, for 25 URLs
failing exactly at positions 5 and 17 it returns exactly 23 albums and counts
exactly 2 failures in its logging. -/
theorem claim3_batch_resilience (parse : String → Nat × Option RSSAlbum)
    (feedUrls : List String) :
    (parseMultipleFeedsInternal parse feedUrls).1
      = feedUrls.filterMap (fun u => (parse u).2) ∧
    ((feedUrls.map (fun u => (parse u).2)).map Option.isNone = failMask25 →
      (parseMultipleFeedsInternal parse feedUrls).1.length = 23 ∧
      (parseMultipleFeedsInternal parse feedUrls).2 = 2) := by
  have hgo := parseMultipleFeedsGo_spec parse feedUrls.length feedUrls (Nat.le_refl _)
  rw [parseMultipleFeedsInternal, hgo]
  constructor
  · rfl
  · intro hmask
    set opts := feedUrls.map (fun u => (parse u).2) with hopts
    have hlen : opts.length = 25 := by
      have h2 := congrArg List.length hmask
      rw [List.length_map] at h2
      rw [h2]
      decide
    have hfail : (opts.filter (fun o => o.isNone)).length = 2 := by
      rw [filter_isNone_length, hmask]
      decide
    have hsum := filterMap_id_length_add opts
    have hfm : opts.filterMap id = feedUrls.filterMap (fun u => (parse u).2) := by
      rw [hopts, List.filterMap_map]
      simp [Function.comp_def]
    refine ⟨?_, hfail⟩
    show (feedUrls.filterMap (fun u => (parse u).2)).length = 23
    rw [← hfm]
    omega

/-- Claim C3 witness: the 25-URL scenario with failures exactly at positions
5 and 17. -/
theorem claim3_witness :
    (parseMultipleFeedsInternal parse25 urls25).1.length = 23 ∧
    (parseMultipleFeedsInternal parse25 urls25).2 = 2 :=
  (claim3_batch_resilience parse25 urls25).2 (by decide)

/-- Claim C4: `withRetry` returns the operation's value on first success with
no callback and no delay; when every attempt fails it invokes the callback
with the attempt number and error for each non-final attempt, waits
`delay * 2 ^ (attempt - 1)` per retry, and propagates the last error; and an
operation failing exactly twice then succeeding returns the success value with
exactly two callbacks and delays `delay * 2 ^ 0` then `delay * 2 ^ 1`. -/
theorem claim4_retry_behaviour {E A : Type} (op : Nat → Except E A)
    (maxRetries delay : Nat) :
    (∀ a, 1 ≤ maxRetries → op 1 = .ok a →
      withRetry op maxRetries delay = ⟨.ok a, [], []⟩) ∧
    (∀ e1 e2 a, 3 ≤ maxRetries → op 1 = .error e1 → op 2 = .error e2 →
      op 3 = .ok a →
      withRetry op maxRetries delay
        = ⟨.ok a, [(1, e1), (2, e2)], [delay * 2 ^ 0, delay * 2 ^ 1]⟩) ∧
    (∀ et : Nat → E, 1 ≤ maxRetries →
      (∀ i, 1 ≤ i → i ≤ maxRetries → op i = .error (et i)) →
      withRetry op maxRetries delay
        = ⟨.error (some (et maxRetries)),
           (List.range (maxRetries - 1)).map (fun j => (j + 1, et (j + 1))),
           (List.range (maxRetries - 1)).map (fun j => delay * 2 ^ j)⟩) := by
  refine ⟨?_, ?_, ?_⟩
  · intro a h1 hop
    obtain ⟨m, rfl⟩ : ∃ m, maxRetries = m + 1 := ⟨maxRetries - 1, by omega⟩
    cases m with
    | zero => simp only [withRetry, withRetryGo, hop]
    | succ mm =>
      show withRetryGo op delay 1 (mm + 2) = _
      simp only [withRetryGo, hop]
  · intro e1 e2 a h3 hop1 hop2 hop3
    obtain ⟨k, rfl⟩ : ∃ k, maxRetries = k + 3 := ⟨maxRetries - 3, by omega⟩
    have s3 : withRetryGo op delay 3 (k + 1) = ⟨.ok a, [], []⟩ := by
      cases k with
      | zero => simp only [withRetryGo, hop3]
      | succ kk =>
        show withRetryGo op delay 3 (kk + 2) = _
        simp only [withRetryGo, hop3]
    show withRetryGo op delay 1 (k + 1 + 2) = _
    simp only [withRetryGo, hop1, show (1 : Nat) + 1 = 2 from rfl,
      show (1 : Nat) + 1 + 1 = 3 from rfl, hop2]
    rw [s3]
  · intro et h1 hall
    obtain ⟨m, rfl⟩ : ∃ m, maxRetries = m + 1 := ⟨maxRetries - 1, by omega⟩
    have hfail := withRetryGo_all_fail op delay et m 1
      (fun i hi1 hi2 => hall i hi1 (by omega))
    rw [withRetry, hfail]
    simp only [RetryTrace.mk.injEq, Nat.add_sub_cancel]
    refine ⟨by rw [Nat.add_comm 1 m], ?_, ?_⟩
    · congr 1
      funext j
      rw [Nat.add_comm 1 j]
    · congr 1
      funext j
      rw [Nat.add_comm 1 j, Nat.add_sub_cancel]

/-- Claim C4 witness: `op3c` fails on attempts 1 and 2 and succeeds on
attempt 3 with value 42, under `maxRetries = 3`, `delay = 100`. -/
theorem claim4_witness :
    withRetry op3c 3 100 = ⟨.ok 42, [(1, "e1"), (2, "e2")], [100 * 2 ^ 0, 100 * 2 ^ 1]⟩ :=
  (claim4_retry_behaviour op3c 3 100).2.1 "e1" "e2" 42 (by omega) rfl rfl rfl

/-- Claim C5, counterexample: a feed whose one item carries the malformed
duration `"abc"` yields an Album whose track duration is the raw string
`"abc"`, which is not in canonical `M:SS` form — refuting "no track duration
field is left in raw form". -/
theorem claim5_counterexample :
    (parseAlbumFromDoc "2026-01-01T00:00:00.000Z" doc5).toOption.map
        (fun a => a.tracks.map (fun t => t.duration)) = some ["abc"] ∧
    specCanonicalMSS "abc" = false :=
  ⟨rfl, rfl⟩

/-- Claim C5, amended: every track duration in a returned Album is the
normalizer applied to the item's raw duration; the normalizer yields canonical
`M:SS` for recognized inputs (pure digits, valid `MM:SS`, valid `HH:MM:SS`,
empty), but passes malformed non-empty strings through unchanged. -/
theorem claim5_durations_normalized (nowIso : String) (doc : XmlDoc)
    (album : RSSAlbum) (hok : parseAlbumFromDoc nowIso doc = .ok album) :
    album.tracks.map (fun t => t.duration)
      = (docGetElements doc "item").map (fun it => normalizeDuration (rawDuration it)) ∧
    normalizeDuration "125" = "2:05" ∧
    normalizeDuration "3:5" = "3:05" ∧
    normalizeDuration "1:02:03" = "62:03" ∧
    normalizeDuration "" = "0:00" ∧
    normalizeDuration "abc" = "abc" := by
  obtain ⟨ch, rest, hch, rfl⟩ := parseAlbum_ok nowIso doc album hok
  refine ⟨?_, by decide, by decide, by decide, by decide, by decide⟩
  show (buildTracks 0 (docGetElements doc "item")).map (fun t => t.duration) = _
  exact buildTracks_map_duration 0 _

/-- Claim C5 witness: the theorem applied to the `"abc"`-duration feed. -/
theorem claim5_witness :
    (albumOf "2026-01-01T00:00:00.000Z" doc5).tracks.map (fun t => t.duration)
      = (docGetElements doc5 "item").map (fun it => normalizeDuration (rawDuration it)) :=
  (claim5_durations_normalized "2026-01-01T00:00:00.000Z" doc5
    (albumOf "2026-01-01T00:00:00.000Z" doc5) rfl).1

/-- Claim C6, counterexample: in a feed whose channel has no `link` element,
the returned Album's `link` field is present with the empty string rather than
omitted, and `link` is not among the claim's stated defaults — refuting
"every absent field is omitted, not defaulted to an empty string". -/
theorem claim6_counterexample :
    getElementsByTagName channelMin "link" = [] ∧
    (parseAlbumFromDoc "2026-01-01T00:00:00.000Z" minDoc).toOption.map
        (fun a => a.link) = some (some "") :=
  ⟨rfl, rfl⟩

/-- Claim C6, amended: the genuinely optional fields — subtitle, summary,
keywords, categories, owner, funding, podroll, publisher, language,
copyright — are omitted when absent in the source, as the claim says; but
`link` (like `description`) is defaulted to the empty string and `explicit`
to `false` (and `releaseDate` to the current time), contrary to the claim's
blanket "not defaulted" statement. -/
theorem claim6_absent_fields (nowIso : String) (doc : XmlDoc) (album : RSSAlbum)
    (hok : parseAlbumFromDoc nowIso doc = .ok album)
    (channel : Xml) (rest : List Xml)
    (hch : docGetElements doc "channel" = channel :: rest)
    (h1 : getElementsByTagName channel "itunes:subtitle" = [])
    (h2 : getElementsByTagName channel "itunes:summary" = [])
    (h3 : getElementsByTagName channel "itunes:keywords" = [])
    (h4 : getElementsByTagName channel "itunes:category" = [])
    (h5 : getElementsByTagName channel "itunes:owner" = [])
    (h6 : getElementsByTagName channel "podcast:funding" = [])
    (h7 : getElementsByTagName channel "funding" = [])
    (h8 : getElementsByTagName channel "podcast:podroll" = [])
    (h9 : getElementsByTagName channel "podroll" = [])
    (h10 : getElementsByTagName channel "podcast:remoteItem" = [])
    (h11 : getElementsByTagName channel "link" = [])
    (h12 : getElementsByTagName channel "language" = [])
    (h13 : getElementsByTagName channel "copyright" = [])
    (h14 : getElementsByTagName channel "itunes:explicit" = []) :
    album.subtitle = none ∧ album.summary = none ∧ album.keywords = none ∧
    album.categories = none ∧ album.owner = none ∧ album.funding = none ∧
    album.podroll = none ∧ album.publisher = none ∧ album.language = none ∧
    album.copyright = none ∧ album.link = some "" ∧ album.explicit = some false := by
  obtain ⟨ch, rest2, hch2, rfl⟩ := parseAlbum_ok nowIso doc album hok
  have hcc : ch = channel := by
    rw [hch2] at hch
    exact (List.cons.injEq ch rest2 channel rest ▸ hch).1
  subst hcc
  refine ⟨?_, ?_, ?_, ?_, ?_, ?_, ?_, ?_, ?_, ?_, ?_, ?_⟩
  · show cleanHtmlContent (textOf ch "itunes:subtitle") = none
    rw [textOf_eq_none _ _ h1]
    rfl
  · show cleanHtmlContent (textOf ch "itunes:summary") = none
    rw [textOf_eq_none _ _ h2]
    rfl
  · show (if (keywordListOf (textOf ch "itunes:keywords")).length > 0
        then some (keywordListOf (textOf ch "itunes:keywords")) else none) = none
    rw [textOf_eq_none _ _ h3]
    rfl
  · show (if ((getElementsByTagName ch "itunes:category").filterMap
          (fun cat => strTruthy (getAttr cat "text"))).length > 0
        then some ((getElementsByTagName ch "itunes:category").filterMap
          (fun cat => strTruthy (getAttr cat "text"))) else none) = none
    rw [h4]
    rfl
  · show (match
        (match (getElementsByTagName ch "itunes:owner").head? with
         | none => none
         | some ownerEl =>
           some (RSSOwner.mk (textOf ownerEl "itunes:name") (textOf ownerEl "itunes:email"))) with
      | some o =>
        if (strTruthy o.ownerName).isSome || (strTruthy o.email).isSome then some o else none
      | none => none) = none
    rw [h5]
    rfl
  · show (if (((getElementsByTagName ch "podcast:funding")
          ++ (getElementsByTagName ch "funding")).filterMap fundingOf).length > 0
        then some (((getElementsByTagName ch "podcast:funding")
          ++ (getElementsByTagName ch "funding")).filterMap fundingOf) else none) = none
    rw [h6, h7]
    rfl
  · show (if (((getElementsByTagName ch "podcast:podroll")
          ++ (getElementsByTagName ch "podroll")).flatMap (fun pr =>
            ((getElementsByTagName pr "podcast:remoteItem")
              ++ (getElementsByTagName pr "remoteItem")).filterMap podrollEntryOf)).length > 0
        then some (((getElementsByTagName ch "podcast:podroll")
          ++ (getElementsByTagName ch "podroll")).flatMap (fun pr =>
            ((getElementsByTagName pr "podcast:remoteItem")
              ++ (getElementsByTagName pr "remoteItem")).filterMap podrollEntryOf)) else none) = none
    rw [h8, h9]
    rfl
  · show (match (getElementsByTagName ch "podcast:remoteItem").find?
        (fun e => getAttr e "medium" == some "publisher") with
      | none => none
      | some el =>
        match strTruthy (getAttr el "feedGuid"), strTruthy (getAttr el "feedUrl"),
              strTruthy (getAttr el "medium") with
        | some g, some u, some m => some (RSSPublisher.mk g u m)
        | _, _, _ => none) = none
    rw [h10]
    rfl
  · exact textOf_eq_none _ _ h12
  · exact textOf_eq_none _ _ h13
  · show some (jsOr (textOf ch "link") "") = some ""
    rw [textOf_eq_none _ _ h11]
    rfl
  · show some (explicitOf ch "itunes:explicit") = some false
    have he := textOf_eq_none ch "itunes:explicit" h14
    simp [explicitOf, he]

/-- Claim C6 witness: the amended theorem applied to a feed with an empty
channel. -/
theorem claim6_witness :
    (albumOf "2026-01-01T00:00:00.000Z" minDoc).subtitle = none ∧
    (albumOf "2026-01-01T00:00:00.000Z" minDoc).summary = none ∧
    (albumOf "2026-01-01T00:00:00.000Z" minDoc).keywords = none ∧
    (albumOf "2026-01-01T00:00:00.000Z" minDoc).categories = none ∧
    (albumOf "2026-01-01T00:00:00.000Z" minDoc).owner = none ∧
    (albumOf "2026-01-01T00:00:00.000Z" minDoc).funding = none ∧
    (albumOf "2026-01-01T00:00:00.000Z" minDoc).podroll = none ∧
    (albumOf "2026-01-01T00:00:00.000Z" minDoc).publisher = none ∧
    (albumOf "2026-01-01T00:00:00.000Z" minDoc).language = none ∧
    (albumOf "2026-01-01T00:00:00.000Z" minDoc).copyright = none ∧
    (albumOf "2026-01-01T00:00:00.000Z" minDoc).link = some "" ∧
    (albumOf "2026-01-01T00:00:00.000Z" minDoc).explicit = some false :=
  claim6_absent_fields "2026-01-01T00:00:00.000Z" minDoc
    (albumOf "2026-01-01T00:00:00.000Z" minDoc) rfl channelMin [] rfl
    rfl rfl rfl rfl rfl rfl rfl rfl rfl rfl rfl rfl rfl rfl

/-- Claim C7: a feed with exactly 3 items yields an Album with exactly 3
tracks, track numbers 1..3 assigned 1-indexed and dense in document order,
and any item with no title element gets the default title `Track N` for its
1-based position `N`. -/
theorem claim7_three_items (nowIso : String) (doc : XmlDoc) (album : RSSAlbum)
    (hok : parseAlbumFromDoc nowIso doc = .ok album)
    (h3 : (docGetElements doc "item").length = 3) :
    album.tracks.length = 3 ∧
    album.tracks.map (fun t => t.trackNumber) = [some 1, some 2, some 3] ∧
    (∀ i, i < 3 →
      getElementsByTagName ((docGetElements doc "item").getD i xmlDefault) "title" = [] →
      (album.tracks.getD i trackDefault).title = "Track " ++ toString (i + 1)) := by
  obtain ⟨ch, rest, hch, rfl⟩ := parseAlbum_ok nowIso doc album hok
  obtain ⟨a, b, c, hitems⟩ := List.length_eq_three.mp h3
  have htr : (albumFromChannel nowIso doc ch).tracks
      = buildTracks 0 (docGetElements doc "item") := rfl
  refine ⟨?_, ?_, ?_⟩
  · rw [htr, hitems]
    rfl
  · rw [htr, hitems]
    rfl
  · intro i hi hti
    rw [hitems] at hti
    rw [htr, hitems]
    interval_cases i
    · rw [show ([a, b, c].getD 0 xmlDefault) = a from rfl] at hti
      show jsOr (textOf a "title") ("Track " ++ toString (0 + 1))
        = "Track " ++ toString (0 + 1)
      rw [textOf_eq_none _ _ hti]
      rfl
    · rw [show ([a, b, c].getD 1 xmlDefault) = b from rfl] at hti
      show jsOr (textOf b "title") ("Track " ++ toString (1 + 1))
        = "Track " ++ toString (1 + 1)
      rw [textOf_eq_none _ _ hti]
      rfl
    · rw [show ([a, b, c].getD 2 xmlDefault) = c from rfl] at hti
      show jsOr (textOf c "title") ("Track " ++ toString (2 + 1))
        = "Track " ++ toString (2 + 1)
      rw [textOf_eq_none _ _ hti]
      rfl

/-- Claim C7 witness: a concrete 3-item feed whose second item has no title;
its track list has length 3, track numbers 1..3, and the second track gets
the default title `Track 2`. -/
theorem claim7_witness :
    (albumOf "2026-01-01T00:00:00.000Z" doc7).tracks.length = 3 ∧
    (albumOf "2026-01-01T00:00:00.000Z" doc7).tracks.map (fun t => t.trackNumber)
      = [some 1, some 2, some 3] ∧
    ((albumOf "2026-01-01T00:00:00.000Z" doc7).tracks.getD 1 trackDefault).title
      = "Track " ++ toString (1 + 1) :=
  ⟨(claim7_three_items "2026-01-01T00:00:00.000Z" doc7
      (albumOf "2026-01-01T00:00:00.000Z" doc7) rfl rfl).1,
   (claim7_three_items "2026-01-01T00:00:00.000Z" doc7
      (albumOf "2026-01-01T00:00:00.000Z" doc7) rfl rfl).2.1,
   (claim7_three_items "2026-01-01T00:00:00.000Z" doc7
      (albumOf "2026-01-01T00:00:00.000Z" doc7) rfl rfl).2.2 1 (by omega) rfl⟩

/-- Claim C8, counterexample: a channel whose only remote item sits inside a
podroll container and has medium `'publisher'`.  The claim's direct-children
scan yields no publisher, but the code emits one, because
`getElementsByTagName` searches all descendants, podroll-nested ones
included. -/
theorem claim8_counterexample :
    docGetElements doc8 "channel" = [channel8] ∧
    specClaimPublisherDirectOnly channel8 = none ∧
    (parseAlbumFromDoc "2026-01-01T00:00:00.000Z" doc8).toOption.map
        (fun a => a.publisher)
      = some (some ⟨"guid-1", "https://pub.example/feed", "publisher"⟩) :=
  ⟨rfl, rfl, rfl⟩

/-- Claim C8, amended: the publisher link is selected by scanning all
`podcast:remoteItem` descendants of the channel (including those nested in
podroll containers) in document order for the first whose medium is
`'publisher'`, and it is emitted only if feedGuid, feedUrl and medium are all
present and nonempty. -/
theorem claim8_publisher_deep (nowIso : String) (doc : XmlDoc) (album : RSSAlbum)
    (hok : parseAlbumFromDoc nowIso doc = .ok album)
    (channel : Xml) (rest : List Xml)
    (hch : docGetElements doc "channel" = channel :: rest) :
    album.publisher = amendedPublisherDeep channel := by
  obtain ⟨ch, rest2, hch2, rfl⟩ := parseAlbum_ok nowIso doc album hok
  have hcc : ch = channel := by
    rw [hch2] at hch
    exact (List.cons.injEq ch rest2 channel rest ▸ hch).1
  subst hcc
  rfl

/-- Claim C8 witness: the amended selection evaluated on the podroll-nested
publisher feed. -/
theorem claim8_witness :
    (albumOf "2026-01-01T00:00:00.000Z" doc8).publisher
      = amendedPublisherDeep channel8 :=
  claim8_publisher_deep "2026-01-01T00:00:00.000Z" doc8
    (albumOf "2026-01-01T00:00:00.000Z" doc8) rfl channel8 [] rfl

/-- Claim C9, counterexample: decoding `"&amp;lt;"` — the `&amp;` replacement
runs before the `&lt;` replacement, so the `&lt;` text it produces IS decoded
again, yielding `"<"` instead of the `"&lt;"` the claim asserts. -/
theorem claim9_counterexample :
    cleanHtmlContent (some "&amp;lt;") = some "<" ∧
    cleanHtmlContent (some "&amp;lt;") ≠ some "&lt;" :=
  ⟨rfl, by decide⟩

/-- Claim C9, amended: entity decoding is a fixed sequence of global
replacements in source order (nbsp, amp, lt, gt, quot, #39, #x27, apos);
text produced by the `&amp;` replacement is decoded again by the later
replacements (`&amp;lt;` → `<`, `&amp;gt;` → `>`, `&amp;quot;` → `"`), while
text produced for an earlier-ordered pattern is not (`&amp;nbsp;` →
`&nbsp;`, `&amp;amp;` → `&amp;`), and strings containing neither `&` nor `<`
undergo no decoding at all. -/
theorem claim9_sequential_decoding :
    cleanHtmlContent (some "&amp;lt;") = some "<" ∧
    cleanHtmlContent (some "&amp;gt;") = some ">" ∧
    cleanHtmlContent (some "&amp;quot;") = some "\x22" ∧
    cleanHtmlContent (some "&amp;nbsp;") = some "&nbsp;" ∧
    cleanHtmlContent (some "&amp;amp;") = some "&amp;" ∧
    (∀ s : String, s ≠ "" → (∀ c ∈ s.data, c ≠ '&' ∧ c ≠ '<') →
      cleanHtmlContent (some s) = some (jsTrim s)) :=
  ⟨rfl, rfl, rfl, rfl, rfl, cleanHtml_no_markup⟩

/-- Claim C9 witness: the no-decoding clause at a markup-free string. -/
theorem claim9_witness :
    cleanHtmlContent (some "hello") = some (jsTrim "hello") :=
  claim9_sequential_decoding.2.2.2.2.2 "hello" (by decide) (by decide)

/-- Claim C10: `cleanHtmlContent` returns the empty string (not `undefined`)
for whitespace-only inputs and for inputs that reduce to nothing after tag
removal, decoding and trimming; `undefined` is returned exactly when the input
is absent (`null`/`undefined`) or the empty string. -/
theorem claim10_empty_string_results :
    (∀ s : String, s ≠ "" → (∀ c ∈ s.data, jsWs c) →
      cleanHtmlContent (some s) = some "") ∧
    cleanHtmlContent (some "<b></b>") = some "" ∧
    cleanHtmlContent none = none ∧
    (∀ s : String, cleanHtmlContent (some s) = none ↔ s = "") := by
  refine ⟨?_, by decide, rfl, ?_⟩
  · intro s hne hws
    have hnm : ∀ c ∈ s.data, c ≠ '&' ∧ c ≠ '<' := by
      intro c hc
      have hw := hws c hc
      constructor <;> rintro rfl <;> exact absurd hw (by decide)
    rw [cleanHtml_no_markup s hne hnm]
    show some (⟨jsTrimChars s.data⟩ : String) = some ""
    rw [jsTrimChars_all_ws s.data hws]
  · intro s
    have hred : cleanHtmlContent (some s)
        = if s = "" then none
          else some ⟨jsTrimChars (entityDecode (stripTagsChars s.data))⟩ := rfl
    rw [hred]
    by_cases hse : s = "" <;> simp [hse]

/-- Claim C10 witness: a whitespace-only input yields the empty string. -/
theorem claim10_witness :
    cleanHtmlContent (some " ") = some "" :=
  claim10_empty_string_results.1 " " (by decide) (by decide)

example : normalizeDuration "125" = "2:05" := by decide
example : normalizeDuration "1:02:03" = "62:03" := by decide
example : normalizeDuration "abc" = "abc" := by decide
example : normalizeDuration "0" = "0" := by decide
example : normalizeDuration "" = "0:00" := by decide
example : normalizeDuration "3:5" = "3:05" := by decide
example : cleanHtmlContent (some "<b>Hi</b> &amp; Bye") = some "Hi & Bye" := by decide
example : cleanHtmlContent (some "&amp;lt;") = some "<" := by decide
example : cleanHtmlContent (some "&amp;nbsp;") = some "&nbsp;" := by decide
example : cleanHtmlContent (some "<b></b>") = some "" := by decide
